import Mathlib

/-!
Shallow embedding of the outbound-delivery orchestration layer of the
`node-mta-send` SMTP relay: the DNS route resolution (`implicitMX`,
`getMXs`), the address classifier (`addressFromLiteral`, `isPrivate`) and
the delivery orchestrator (`sendMessage`, plus the host loop of the
earlier `sendEmail` variant).

JavaScript thrown values are modelled by the inductive `JsErr`.  The
asynchronous collaborators (the DNS resolver and the SMTP transport) are
passed in as explicit outcome values, so every source function becomes a
pure Lean function over those outcomes:

* `dns.promises.resolveMx domain` is the parameter `rmx`,
* `dns.promises.resolve4 domain` / `resolve6 domain` are `r4` / `r6`,
* one whole per-host transport attempt (construct the session, `connect`,
  `send`, with `wrapErrorEvent` folding an asynchronous socket error into
  the same promise) is the parameter `attempt : String → Except JsErr α`,
  applied to the candidate host name,
* the per-element values drawn from `Math.random` by the lodash
  `_.sortBy(mx, ["priority", Math.random])` call are the parameter
  `rnd : Nat → Nat`, applied to the element's position.
-/

deriving instance DecidableEq for Except

/-- Model of a JavaScript thrown value, at the granularity at which the
source discriminates thrown values: a NodeJS `Error` carrying a string
`code` property (DNS resolver failures), the `AggregateError` produced by
`Promise.any` over the two address-family lookups when both reject (such
an error is an `instanceof Error` but has no `code` property), an `Error`
on which the source has set the `response` and `responseCode` properties,
a plain `Error` with only a message, a `TypeError` raised by a property
access on `undefined`, and a thrown non-`Error` value. -/
inductive JsErr where
  | node (code : String)
  | aggregate (e4 e6 : JsErr)
  | mtaError (message : String) (response : String) (responseCode : Nat)
  | plainError (message : String)
  | typeError (message : String)
  | nonError
  deriving DecidableEq

/-- `instanceOfNodeError(value, Error)` of the source: `value instanceof
Error`, true for every modelled thrown value except a non-`Error`. -/
def instanceOfNodeError : JsErr → Bool
  | .nonError => false
  | _ => true

/-- The `code` property of a thrown value (`undefined`, i.e. `none`, for
everything but a NodeJS errno-style `Error`; in particular an
`AggregateError` has no `code`). -/
def errCode : JsErr → Option String
  | .node c => some c
  | _ => none

/-- The `response` property the source attaches to the errors it creates
(`undefined` elsewhere). -/
def errResponse : JsErr → Option String
  | .mtaError _ r _ => some r
  | _ => none

/-- The `responseCode` property the source attaches to the errors it
creates (`undefined` elsewhere). -/
def errResponseCode : JsErr → Option Nat
  | .mtaError _ _ c => some c
  | _ => none

/-- A DNS MX record as returned by `dns.promises.resolveMx`. -/
structure MXRecord where
  priority : Nat
  exchange : String
  deriving DecidableEq

/-- `Promise.any([resolve4(domain), resolve6(domain)])`: fulfils as soon
as either lookup fulfils; when both reject it rejects with an
`AggregateError` holding the two rejection reasons.  Which fulfilled value
wins the race is immaterial downstream (only fulfilment itself is
observed), so the IPv4 value is returned when both fulfil. -/
def promiseAny2 : Except JsErr (List String) → Except JsErr (List String) → Except JsErr (List String)
  | .ok v, _ => .ok v
  | .error _, .ok v => .ok v
  | .error e4, .error e6 => .error (.aggregate e4 e6)

/-- `implicitMX(domain)` of `main.ts`: race the two address-family
lookups; on any fulfilment return the RFC 5321 implicit MX record
`[{priority: 0, exchange: domain}]`; otherwise inspect the caught error:
if it is an `Error` whose `code` is `ENODATA` or `ENOTFOUND` return the
empty route, else rethrow it. -/
def implicitMX (domain : String) (r4 r6 : Except JsErr (List String)) :
    Except JsErr (List MXRecord) :=
  match promiseAny2 r4 r6 with
  | .ok _ => .ok [⟨0, domain⟩]
  | .error err =>
    if instanceOfNodeError err then
      if errCode err = some "ENODATA" ∨ errCode err = some "ENOTFOUND" then .ok []
      else .error err
    else .error err

/-- The key order used by `_.sortBy(mx, ["priority", Math.random])`: the
lexicographic order on the pair of the record's `priority` and the random
number drawn for the element. -/
def mxKeyLe (a b : MXRecord × Nat) : Prop :=
  a.1.priority < b.1.priority ∨ (a.1.priority = b.1.priority ∧ a.2 ≤ b.2)

instance : DecidableRel mxKeyLe := fun a b =>
  inferInstanceAs (Decidable (a.1.priority < b.1.priority ∨ (a.1.priority = b.1.priority ∧ a.2 ≤ b.2)))

instance : IsTotal (MXRecord × Nat) mxKeyLe := ⟨by intro a b; unfold mxKeyLe; omega⟩

instance : IsTrans (MXRecord × Nat) mxKeyLe := ⟨by intro a b c; unfold mxKeyLe; omega⟩

/-- Pair each list element with the random number drawn for its position,
in order, as lodash computes the `Math.random` iteratee once per element. -/
def withKeys (rnd : Nat → Nat) : Nat → List MXRecord → List (MXRecord × Nat)
  | _, [] => []
  | i, m :: ms => (m, rnd i) :: withKeys rnd (i + 1) ms

/-- `_.sortBy(mx, ["priority", Math.random])`: a stable sort of the
records keyed by `(priority, random)`.  A stable sort by a total preorder
has a unique result, so the stable `List.insertionSort` models lodash's
stable sort faithfully. -/
def sortMX (rnd : Nat → Nat) (mx : List MXRecord) : List MXRecord :=
  ((withKeys rnd 0 mx).insertionSort mxKeyLe).map Prod.fst

/-- The `catch` block of `getMXs(domain)` in `main.ts`, applied to the
caught error: if it is an `Error` whose `code` is `ENODATA` or
`ENOTFOUND`, fall back to `implicitMX(domain)` (whose own rejection then
propagates); anything else — the source comment names `ETIMEOUT`
explicitly — is rethrown. -/
def getMXsCatch (domain : String) (r4 r6 : Except JsErr (List String)) (err : JsErr) :
    Except JsErr (List MXRecord) :=
  if instanceOfNodeError err then
    if errCode err = some "ENODATA" ∨ errCode err = some "ENOTFOUND" then implicitMX domain r4 r6
    else .error err
  else .error err

/-- `getMXs(domain)` of `main.ts`: resolve MX; on a fulfilled empty
record set fall back to `implicitMX` (still inside the `try`, so a
rejection of that fallback reaches the same `catch`); on a fulfilled
non-empty set return it sorted by `(priority, random)`; on rejection run
the `catch` block. -/
def getMXs (domain : String) (rmx : Except JsErr (List MXRecord))
    (r4 r6 : Except JsErr (List String)) (rnd : Nat → Nat) :
    Except JsErr (List MXRecord) :=
  match rmx with
  | .error err => getMXsCatch domain r4 r6 err
  | .ok [] =>
    match implicitMX domain r4 r6 with
    | .ok route => .ok route
    | .error err => getMXsCatch domain r4 r6 err
  | .ok mx => .ok (sortMX rnd mx)

/-- The `domainPart` of a mailbox parsed by the external
`smtp-address-parser` collaborator: an object carrying either a
`DomainName` or an `AddressLiteral` string property, each possibly
absent (`undefined`). -/
structure DomainPart where
  AddressLiteral : Option String := none
  DomainName : Option String := none
  deriving DecidableEq

/-- The result of `smtpAddressParser.parse` on the recipient, to the
extent `sendMessage` inspects it. -/
structure ParsedAddress where
  domainPart : DomainPart
  deriving DecidableEq

/-- JavaScript truthiness of a possibly-absent string property: an absent
(`undefined`) property and the empty string are falsy. -/
def truthyStr : Option String → Bool
  | some s => !(s == "")
  | none => false

/-- The fulfilment value of a successful per-host attempt:
`{ ...sent, host }`, the transport's own acknowledgment spread together
with the accepting host's name. -/
structure SendResult (α : Type) where
  sent : α
  host : String
  deriving DecidableEq

/-- JavaScript `s.split(".")` on the domain-name string, as a function on
the character list: splitting on every `'.'`, keeping empty fragments. -/
def splitOnDot : List Char → List (List Char)
  | [] => [[]]
  | c :: rest =>
    if c = '.' then [] :: splitOnDot rest
    else
      match splitOnDot rest with
      | h :: t => (c :: h) :: t
      | [] => [[c]]

/-- The host loop of `sendMessage` in `main.ts` (the current source),
over the resolved records.  Each iteration constructs a fresh session for
the record's `exchange` and awaits the attempt; on fulfilment the session
is quit and `{ ...sent, host }` returned; on rejection the session is
quit, the error logged, and a fresh `Error("Delivery attempt failed")`
with `response`/`responseCode` 500 is thrown — so the loop never reaches
a second record.  Falling off the loop (an empty record list) throws
`Error("Could not deliver message.")`.  The second component collects the
hosts for which a session was constructed, in order. -/
def sendMessageLoop {α : Type} (attempt : String → Except JsErr α) :
    List MXRecord → Except JsErr (SendResult α) × List String
  | [] => (.error (.plainError "Could not deliver message."), [])
  | mx :: _ =>
    match attempt mx.exchange with
    | .ok sent => (.ok ⟨sent, mx.exchange⟩, [mx.exchange])
    | .error _ =>
      (.error (.mtaError "Delivery attempt failed" "Delivery attempt failed" 500), [mx.exchange])

/-- The host loop of the earlier `sendEmail` variant: identical except
that a rejected attempt is only logged — the session is quit and the loop
advances to the next record; falling off the loop throws
`Error("Could not deliver message.")`. -/
def sendEmailLoop {α : Type} (attempt : String → Except JsErr α) :
    List MXRecord → Except JsErr (SendResult α) × List String
  | [] => (.error (.plainError "Could not deliver message."), [])
  | mx :: rest =>
    match attempt mx.exchange with
    | .ok sent => (.ok ⟨sent, mx.exchange⟩, [mx.exchange])
    | .error _ =>
      let (res, hs) := sendEmailLoop attempt rest
      (res, mx.exchange :: hs)

/-- Lines of `sendMessage` from the route checks onward: an empty record
list throws `"No MX (or A or AAAA) record"` with `response`
`"No MX or A or AAAA"` and `responseCode` 500; a sole record with
`priority === 0` and `exchange === ""` (the RFC 7505 null MX sentinel)
throws `"Null MX record"` with `response` `"Null MX"` and `responseCode`
500; otherwise the host loop runs.  The second component again collects
the hosts for which a transport session was constructed. -/
def deliverToRoute {α : Type} (attempt : String → Except JsErr α) :
    List MXRecord → Except JsErr (SendResult α) × List String
  | [] => (.error (.mtaError "No MX (or A or AAAA) record" "No MX or A or AAAA" 500), [])
  | [mx] =>
    if mx.priority = 0 ∧ mx.exchange = "" then
      (.error (.mtaError "Null MX record" "Null MX" 500), [])
    else sendMessageLoop attempt [mx]
  | mxs => sendMessageLoop attempt mxs

/-- Observable side effects of one `sendMessage` call: whether any DNS
query was issued, and the hosts for which a transport session was
constructed. -/
structure SendTrace where
  dnsQueried : Bool
  hostsTried : List String
  deriving DecidableEq

/-- `sendMessage` of `main.ts`, from the point where the recipient has
been parsed (`smtpAddressParser.parse` is an external collaborator; an
unparsable recipient rejects before any of the modelled logic runs).
In source order: a truthy `domainPart.AddressLiteral` throws
`"Domain is an address literal"` with `responseCode` 500; then
`domainPart.DomainName.split(".")` runs — a `TypeError` if `DomainName`
is absent, which the parser never produces — and fewer than two labels
throws `"Domain not fully qualified"` with `responseCode` 500; then
`getMXs` resolves the route (its rejection propagates), and
`deliverToRoute` performs the checks and the host loop. -/
def sendMessage {α : Type} (toParsed : ParsedAddress) (rmx : Except JsErr (List MXRecord))
    (r4 r6 : Except JsErr (List String)) (rnd : Nat → Nat)
    (attempt : String → Except JsErr α) : Except JsErr (SendResult α) × SendTrace :=
  if truthyStr toParsed.domainPart.AddressLiteral then
    (.error (.mtaError "Domain is an address literal" "Domain is an address literal" 500),
      ⟨false, []⟩)
  else
    match toParsed.domainPart.DomainName with
    | none => (.error (.typeError "Cannot read properties of undefined"), ⟨false, []⟩)
    | some dn =>
      if (splitOnDot dn.data).length < 2 then
        (.error (.mtaError "Domain not fully qualified" "Domain not fully qualified" 500),
          ⟨false, []⟩)
      else
        match getMXs dn rmx r4 r6 rnd with
        | .error e => (.error e, ⟨true, []⟩)
        | .ok mxRecords =>
          let (res, hosts) := deliverToRoute attempt mxRecords
          (res, ⟨true, hosts⟩)

/-- The four-octet dotted-quad validity check of the external `is-ip`
collaborator's `isIp.v4`: each dot-separated token is one to three
decimal digits with value at most 255 (leading zeros permitted, as in the
collaborator's pattern and in RFC 5321's `Snum`). -/
def validOctet (cs : List Char) : Bool :=
  !cs.isEmpty && cs.length ≤ 3 && cs.all Char.isDigit && cs.foldl (fun n c => n * 10 + (c.toNat - '0'.toNat)) 0 ≤ 255

/-- The numeric value `Number(s)` of a decimal-digit token. -/
def natOfDigits (cs : List Char) : Nat :=
  cs.foldl (fun n c => n * 10 + (c.toNat - '0'.toNat)) 0

/-- `isIp.v4(addr)` of the external `is-ip` collaborator: an exact match
of four valid octet tokens separated by dots. -/
def isIPv4 (addr : String) : Bool :=
  match splitOnDot addr.data with
  | [a, b, c, d] => validOctet a && validOctet b && validOctet c && validOctet d
  | _ => false

/-- JavaScript `String.prototype.startsWith` over character lists. -/
def beginsWith : List Char → List Char → Bool
  | [], _ => true
  | _, [] => false
  | p :: ps, c :: cs => p == c && beginsWith ps cs

/-- JavaScript `String.prototype.toLowerCase` over character lists
(ASCII range, which covers every address the classifier accepts). -/
def jsToLower (cs : List Char) : List Char :=
  cs.map Char.toLower

/-- `isPrivate(addr)` of `main.ts`.  For a string accepted by `isIp.v4`
the unanchored `ipv4re` match succeeds at position 0 and its captures are
exactly the four dot-separated octet tokens, which the source compares
textually (`a[1] == "10"`, `a[1] == "172"`, `a[1] == "192" && a[2] ==
"168"`), converting only the second octet of `172.x` with `Number` for
the `[16,31]` range test.  For a string accepted instead by the IPv6
check (the external collaborator's `isIp.v6`, passed in as the predicate
`v6pred`) it returns `addr.toLowerCase().startsWith("fd")`.  Anything
else throws `` `${addr} is not an IP address` ``. -/
def isPrivate (v6pred : String → Bool) (addr : String) : Except JsErr Bool :=
  if isIPv4 addr then
    match splitOnDot addr.data with
    | [a1, a2, _, _] =>
      if a1 = ['1', '0'] then .ok true
      else if a1 = ['1', '7', '2'] then
        .ok (decide (16 ≤ natOfDigits a2) && decide (natOfDigits a2 ≤ 31))
      else .ok (decide (a1 = ['1', '9', '2']) && decide (a2 = ['1', '6', '8']))
    | _ => .error (.plainError (addr ++ " not a valid IPv4 address"))
  else if v6pred addr then
    .ok (beginsWith ['f', 'd'] (jsToLower addr.data))
  else .error (.plainError (addr ++ " is not an IP address"))

/-- The property the claim states for the IPv6 branch of `isPrivate`:
the first two characters of the address are `fd`, compared
case-insensitively. -/
def firstTwoFD : List Char → Prop
  | c1 :: c2 :: _ => c1.toLower = 'f' ∧ c2.toLower = 'd'
  | _ => False

/-- The characters consumed by the greedy `[^\]]*` when it is followed by
`]` in the pattern, at a fixed start position: the characters before the
first `']'`, or `none` when no `']'` follows at all. -/
def untilRBracket : List Char → Option (List Char)
  | [] => none
  | c :: cs =>
    if c = ']' then some []
    else (untilRBracket cs).map (c :: ·)

/-- The leftmost unanchored match of `/\[([^\]]*)\]/`, returning the
capture group: scan for a `'['` from which the rest of the pattern
matches; at a viable position capture up to the first following `']'`. -/
def bracketCapture : List Char → Option (List Char)
  | [] => none
  | c :: cs =>
    if c = '[' then
      match untilRBracket cs with
      | some content => some content
      | none => bracketCapture cs
    else bracketCapture cs

/-- The leftmost unanchored match of `/\[IPv6:([^\]]*)\]/i`, returning
the capture group: the literal tag `[IPv6:` with its three letters
compared case-insensitively, then the capture up to the first following
`']'`. -/
def ipv6Capture : List Char → Option (List Char)
  | c0 :: c1 :: c2 :: c3 :: c4 :: c5 :: tail =>
    if c0 = '[' ∧ c1.toLower = 'i' ∧ c2.toLower = 'p' ∧ c3.toLower = 'v' ∧ c4 = '6' ∧ c5 = ':' then
      match untilRBracket tail with
      | some content => some content
      | none => ipv6Capture (c1 :: c2 :: c3 :: c4 :: c5 :: tail)
    else ipv6Capture (c1 :: c2 :: c3 :: c4 :: c5 :: tail)
  | _ => none

/-- `addressFromLiteral(literal)` of `main.ts`: try the `[IPv6:...]`
pattern, then the plain `[...]` pattern, returning the first capture;
throw `` `${literal} is not an address literal` `` when neither matches. -/
def addressFromLiteral (literal : String) : Except JsErr String :=
  match ipv6Capture literal.data with
  | some content => .ok (String.mk content)
  | none =>
    match bracketCapture literal.data with
    | some content => .ok (String.mk content)
    | none => .error (.plainError (literal ++ " is not an address literal"))

/-- The claim-side notion of the input containing a bracketed substring
`[s]` with `s` free of `']'`. -/
def hasBracketPair (cs : List Char) : Prop :=
  ∃ pre mid post, cs = pre ++ '[' :: (mid ++ ']' :: post) ∧ ']' ∉ mid

/-! ## Sanity checks against the repository's own test values -/

example : addressFromLiteral "[127.0.0.1]" = .ok "127.0.0.1" := by decide

example : addressFromLiteral "[IPv6:::1]" = .ok "::1" := by decide

example : isPrivate (fun _ => false) "10.0.0.1" = .ok true := by decide

example : isPrivate (fun _ => false) "172.16.0.1" = .ok true := by decide

example : isPrivate (fun _ => false) "172.32.0.1" = .ok false := by decide

example : isPrivate (fun _ => false) "192.168.0.1" = .ok true := by decide

example : isPrivate (fun _ => false) "9.9.9.9" = .ok false := by decide

example : isPrivate (fun _ => true) "fd12:3456:789a:1::1" = .ok true := by decide

example : getMXs "x.test" (.ok [⟨20, "b"⟩, ⟨10, "a"⟩]) (.ok []) (.ok []) (fun _ => 0) =
    .ok [⟨10, "a"⟩, ⟨20, "b"⟩] := by decide

example : getMXs "x.test" (.error (.node "ENODATA")) (.ok ["192.0.2.1"])
    (.error (.node "ENODATA")) (fun _ => 0) = .ok [⟨0, "x.test"⟩] := by decide

/-! ## Claim theorems -/

/-- C1: the claim says a transport-level error during one host's attempt
is contained to that host and the loop advances to the next candidate.
In the current `sendMessage` host loop the `catch` block instead throws a
fresh `"Delivery attempt failed"` error with `responseCode` 500, so the
failure of the first host escapes the loop and the second candidate is
never attempted; the earlier `sendEmail` host loop (still in the
repository) behaves as the claim states, advancing past the failed first
host and returning a result whose `host` field is the second candidate. -/
theorem sendMessage_first_host_failure_escapes :
    sendMessageLoop
        (fun h => if h == "mx1.example.com" then .error (.node "ECONNREFUSED")
          else (.ok 1 : Except JsErr Nat))
        [⟨10, "mx1.example.com"⟩, ⟨20, "mx2.example.com"⟩] =
      (.error (.mtaError "Delivery attempt failed" "Delivery attempt failed" 500),
        ["mx1.example.com"])
    ∧ sendEmailLoop
        (fun h => if h == "mx1.example.com" then .error (.node "ECONNREFUSED")
          else (.ok 1 : Except JsErr Nat))
        [⟨10, "mx1.example.com"⟩, ⟨20, "mx2.example.com"⟩] =
      (.ok ⟨1, "mx2.example.com"⟩, ["mx1.example.com", "mx2.example.com"]) := by
  exact ⟨by decide, by decide⟩

/-- C2 counterexample: an MX lookup rejection with `code` `ETIMEOUT` is
rethrown by `getMXs` — the result is the propagated error, not the empty
route the claim states. -/
theorem getMXs_timeout_throws_counterexample :
    getMXs "example.com" (.error (.node "ETIMEOUT")) (.ok ["192.0.2.1"])
        (.error (.node "ENODATA")) (fun _ => 0) = .error (.node "ETIMEOUT")
    ∧ getMXs "example.com" (.error (.node "ETIMEOUT")) (.ok ["192.0.2.1"])
        (.error (.node "ENODATA")) (fun _ => 0) ≠ .ok [] := by
  exact ⟨by decide, by decide⟩

/-- C2 (amended): when the MX lookup rejects with any error whose `code`
is neither `ENODATA` nor `ENOTFOUND` — a timeout included — `getMXs`
propagates that error to the caller; only the two no-data codes divert to
the implicit-MX fallback. -/
theorem getMXs_nonNoData_error_propagates (domain : String) (e : JsErr)
    (r4 r6 : Except JsErr (List String)) (rnd : Nat → Nat)
    (h1 : errCode e ≠ some "ENODATA") (h2 : errCode e ≠ some "ENOTFOUND") :
    getMXs domain (.error e) r4 r6 rnd = .error e := by
  cases e <;> simp_all [getMXs, getMXsCatch, instanceOfNodeError, errCode]

/-- C2 witness: the amended theorem applied to the `ETIMEOUT` rejection. -/
theorem getMXs_nonNoData_error_propagates_witness :
    errCode (.node "ETIMEOUT") ≠ some "ENODATA"
    ∧ errCode (.node "ETIMEOUT") ≠ some "ENOTFOUND"
    ∧ getMXs "example.com" (.error (.node "ETIMEOUT")) (.ok []) (.ok []) (fun _ => 0) =
        .error (.node "ETIMEOUT") :=
  ⟨by decide, by decide,
    getMXs_nonNoData_error_propagates "example.com" _ _ _ _ (by decide) (by decide)⟩

/-- C3: the claim says that when both address-family lookups fail with
no-data errors, `implicitMX` returns an empty route.  In fact
`Promise.any` rejects with an `AggregateError`, which has no `code`
property, so the `ENODATA`/`ENOTFOUND` test never matches and the
`return []` branch is unreachable: whenever both lookups reject — with
no-data errors included — `implicitMX` rethrows the aggregate error. -/
theorem implicitMX_both_fail_throws_aggregate :
    (∀ (domain : String) (e4 e6 : JsErr),
      implicitMX domain (.error e4) (.error e6) = .error (.aggregate e4 e6))
    ∧ implicitMX "example.com" (.error (.node "ENODATA")) (.error (.node "ENODATA")) ≠ .ok [] := by
  constructor
  · intro domain e4 e6
    simp [implicitMX, promiseAny2, instanceOfNodeError, errCode]
  · decide

/-- C4 counterexample: two single-host deliveries whose per-host attempts
fail with different transport errors produce identical terminal failures
(the fixed `"Delivery attempt failed"` error), so the terminal failure
does not carry the last observed per-host error, contrary to the claim. -/
theorem sendMessage_terminal_failure_ignores_host_error :
    sendMessageLoop (fun _ => (.error (.node "ECONNREFUSED") : Except JsErr Nat))
        [⟨10, "mx1.example.com"⟩] =
      sendMessageLoop (fun _ => (.error (.node "ETIMEDOUT") : Except JsErr Nat))
        [⟨10, "mx1.example.com"⟩]
    ∧ (JsErr.node "ECONNREFUSED") ≠ (JsErr.node "ETIMEDOUT")
    ∧ (sendMessageLoop (fun _ => (.error (.node "ECONNREFUSED") : Except JsErr Nat))
        [⟨10, "mx1.example.com"⟩]).1 =
        .error (.mtaError "Delivery attempt failed" "Delivery attempt failed" 500) := by
  exact ⟨by decide, by decide, by decide⟩

/-- C4 (amended): when every candidate host's attempt would fail, the
host loop of `sendMessage` raises a failure with the non-empty response
text `"Delivery attempt failed"` and response code 500; it is a fixed
error object, so the last per-host error is only logged, never carried
on the raised failure. -/
theorem sendMessage_all_hosts_failed_response {α : Type}
    (attempt : String → Except JsErr α) (mxs : List MXRecord) (hne : mxs ≠ [])
    (hfail : ∀ mx ∈ mxs, ∃ e, attempt mx.exchange = .error e) :
    (sendMessageLoop attempt mxs).1 =
      .error (.mtaError "Delivery attempt failed" "Delivery attempt failed" 500)
    ∧ errResponse (.mtaError "Delivery attempt failed" "Delivery attempt failed" 500) =
        some "Delivery attempt failed"
    ∧ "Delivery attempt failed" ≠ ""
    ∧ errResponseCode (.mtaError "Delivery attempt failed" "Delivery attempt failed" 500) =
        some 500 := by
  match mxs, hne with
  | mx :: rest, _ =>
    obtain ⟨e, he⟩ := hfail mx (by simp)
    exact ⟨by simp [sendMessageLoop, he], rfl, by decide, rfl⟩

/-- C4 witness: the amended theorem applied to a one-host route whose
attempt is refused. -/
theorem sendMessage_all_hosts_failed_response_witness :
    ([⟨10, "mx1.example.com"⟩] : List MXRecord) ≠ []
    ∧ (sendMessageLoop (fun _ : String => (.error (.node "ECONNREFUSED") : Except JsErr Nat))
        [⟨10, "mx1.example.com"⟩]).1 =
        .error (.mtaError "Delivery attempt failed" "Delivery attempt failed" 500) :=
  ⟨by decide,
    (sendMessage_all_hosts_failed_response _ _ (by decide) (fun _ _ => ⟨_, rfl⟩)).1⟩

/-- C5: for a domain whose MX lookup yields zero records — a fulfilled
empty set or a rejection with `code` `ENODATA` or `ENOTFOUND` — and whose
IPv4 or IPv6 address lookup fulfils with at least one address, `getMXs`
returns exactly the single implicit record
`[{priority: 0, exchange: domain}]`. -/
theorem getMXs_implicit_single_record (domain : String)
    (rmx : Except JsErr (List MXRecord)) (r4 r6 : Except JsErr (List String)) (rnd : Nat → Nat)
    (hmx : rmx = .ok [] ∨
      ∃ e, rmx = .error e ∧ (errCode e = some "ENODATA" ∨ errCode e = some "ENOTFOUND"))
    (haddr : (∃ addrs, r4 = .ok addrs ∧ addrs ≠ []) ∨ (∃ addrs, r6 = .ok addrs ∧ addrs ≠ [])) :
    getMXs domain rmx r4 r6 rnd = .ok [⟨0, domain⟩] := by
  have himp : implicitMX domain r4 r6 = .ok [⟨0, domain⟩] := by
    rcases haddr with ⟨addrs, h4, _⟩ | ⟨addrs, h6, _⟩
    · subst h4; simp [implicitMX, promiseAny2]
    · subst h6
      cases r4 with
      | ok v => simp [implicitMX, promiseAny2]
      | error e => simp [implicitMX, promiseAny2]
  rcases hmx with h | ⟨e, he, hcode⟩
  · subst h; simp [getMXs, himp]
  · subst he
    have hi : instanceOfNodeError e = true := by
      cases e <;> simp_all [errCode, instanceOfNodeError]
    simp [getMXs, getMXsCatch, hi, hcode, himp]

/-- C5 witness: an empty fulfilled MX set with one A record yields the
implicit single-record route. -/
theorem getMXs_implicit_single_record_witness :
    getMXs "example.com" (.ok []) (.ok ["192.0.2.1"]) (.error (.node "ENODATA")) (fun _ => 0) =
      .ok [⟨0, "example.com"⟩] :=
  getMXs_implicit_single_record "example.com" _ _ _ _ (Or.inl rfl)
    (Or.inl ⟨["192.0.2.1"], rfl, by decide⟩)

/-- C6: after resolution, an empty route makes `sendMessage` throw the
`"No MX (or A or AAAA) record"` error with response `"No MX or A or
AAAA"` and code 500, and the sole null-MX sentinel route
`[{priority: 0, exchange: ""}]` makes it throw the `"Null MX record"`
error with response `"Null MX"` and code 500 — in both cases with an
empty list of hosts for which a transport session was constructed, i.e.
without attempting any connection. -/
theorem deliverToRoute_empty_and_nullMX :
    ∀ (α : Type) (attempt : String → Except JsErr α),
      deliverToRoute attempt ([] : List MXRecord) =
        (.error (.mtaError "No MX (or A or AAAA) record" "No MX or A or AAAA" 500), [])
      ∧ deliverToRoute attempt [⟨0, ""⟩] =
        (.error (.mtaError "Null MX record" "Null MX" 500), []) := by
  intro α attempt
  exact ⟨rfl, by simp [deliverToRoute]⟩

/-- C7: a recipient whose parsed domain part has a (truthy) address
literal is rejected with the `"Domain is an address literal"` error and
code 500, and a recipient whose domain name splits into fewer than two
dot-separated labels is rejected with the `"Domain not fully qualified"`
error and code 500 — both with `dnsQueried = false` and no transport
session, i.e. before any DNS query or connection.  The first conjunct
holds for every `DomainName` value including `none`, which is only
possible because the source tests `AddressLiteral` before it dereferences
`DomainName`: the address-literal check runs first. -/
theorem sendMessage_validation_before_dns :
    ∀ (α : Type) (dp : DomainPart) (rmx : Except JsErr (List MXRecord))
      (r4 r6 : Except JsErr (List String)) (rnd : Nat → Nat)
      (attempt : String → Except JsErr α),
      (truthyStr dp.AddressLiteral = true →
        sendMessage ⟨dp⟩ rmx r4 r6 rnd attempt =
          (.error (.mtaError "Domain is an address literal" "Domain is an address literal" 500),
            ⟨false, []⟩))
      ∧ (∀ dn, truthyStr dp.AddressLiteral = false → dp.DomainName = some dn →
          (splitOnDot dn.data).length < 2 →
          sendMessage ⟨dp⟩ rmx r4 r6 rnd attempt =
            (.error (.mtaError "Domain not fully qualified" "Domain not fully qualified" 500),
              ⟨false, []⟩)) := by
  intro α dp rmx r4 r6 rnd attempt
  constructor
  · intro h
    simp [sendMessage, h]
  · intro dn h1 h2 h3
    simp [sendMessage, h1, h2, h3]

/-- C7 witness: an address-literal recipient and a single-label domain
name, each rejected before any DNS query. -/
theorem sendMessage_validation_before_dns_witness :
    truthyStr (some "127.0.0.1") = true
    ∧ sendMessage ⟨{ AddressLiteral := some "127.0.0.1" }⟩ (.ok []) (.ok [])
        (.ok []) (fun _ => 0) (fun _ => (.ok 1 : Except JsErr Nat)) =
        (.error (.mtaError "Domain is an address literal" "Domain is an address literal" 500),
          ⟨false, []⟩)
    ∧ truthyStr (none : Option String) = false
    ∧ (splitOnDot "localhost".data).length < 2
    ∧ sendMessage ⟨{ DomainName := some "localhost" }⟩ (.ok []) (.ok [])
        (.ok []) (fun _ => 0) (fun _ => (.ok 1 : Except JsErr Nat)) =
        (.error (.mtaError "Domain not fully qualified" "Domain not fully qualified" 500),
          ⟨false, []⟩) :=
  ⟨by decide,
    (sendMessage_validation_before_dns Nat { AddressLiteral := some "127.0.0.1" } (.ok [])
      (.ok []) (.ok []) (fun _ => 0) (fun _ => .ok 1)).1 (by decide),
    by decide, by decide,
    (sendMessage_validation_before_dns Nat { DomainName := some "localhost" } (.ok [])
      (.ok []) (.ok []) (fun _ => 0) (fun _ => .ok 1)).2 "localhost" (by decide) rfl (by decide)⟩

/-- Dropping the random keys recovers the original records. -/
theorem withKeys_map_fst (rnd : Nat → Nat) :
    ∀ (i : Nat) (l : List MXRecord), (withKeys rnd i l).map Prod.fst = l := by
  intro i l
  induction l generalizing i with
  | nil => rfl
  | cons m ms ih => simp [withKeys, ih]

/-- The sorted route is a permutation of the looked-up records. -/
theorem sortMX_perm (rnd : Nat → Nat) (mx : List MXRecord) : (sortMX rnd mx).Perm mx := by
  unfold sortMX
  have h := (List.perm_insertionSort mxKeyLe (withKeys rnd 0 mx)).map Prod.fst
  rwa [withKeys_map_fst] at h

/-- The sorted route is non-decreasing in `priority`. -/
theorem sortMX_sorted (rnd : Nat → Nat) (mx : List MXRecord) :
    List.Sorted (fun a b : MXRecord => a.priority ≤ b.priority) (sortMX rnd mx) := by
  unfold sortMX
  have h := List.sorted_insertionSort mxKeyLe (withKeys rnd 0 mx)
  refine List.Pairwise.map Prod.fst ?_ h
  intro a b hab
  unfold mxKeyLe at hab
  omega

/-- C8: for an MX lookup fulfilled with at least one record, the route
returned by `getMXs` is the `(priority, random)`-keyed stable sort of the
looked-up records, which is a permutation of them sorted non-decreasing
by priority; and the relative order of equal-priority records depends on
the random draw, so it need not be stable across calls. -/
theorem getMXs_sorted_permutation :
    (∀ (domain : String) (mx : List MXRecord) (r4 r6 : Except JsErr (List String))
      (rnd : Nat → Nat), mx ≠ [] →
      getMXs domain (.ok mx) r4 r6 rnd = .ok (sortMX rnd mx)
      ∧ (sortMX rnd mx).Perm mx
      ∧ List.Sorted (fun a b : MXRecord => a.priority ≤ b.priority) (sortMX rnd mx))
    ∧ (∃ rnd1 rnd2 : Nat → Nat,
        sortMX rnd1 [⟨0, "a.test"⟩, ⟨0, "b.test"⟩] ≠ sortMX rnd2 [⟨0, "a.test"⟩, ⟨0, "b.test"⟩]) := by
  constructor
  · intro domain mx r4 r6 rnd hne
    refine ⟨?_, sortMX_perm rnd mx, sortMX_sorted rnd mx⟩
    match mx, hne with
    | m :: ms, _ => rfl
  · exact ⟨fun _ => 0, fun n => 1 - n, by decide⟩

/-- C8 witness: a two-record lookup is returned sorted ascending by
priority, as a permutation of the input. -/
theorem getMXs_sorted_permutation_witness :
    ([⟨20, "b.test"⟩, ⟨10, "a.test"⟩] : List MXRecord) ≠ []
    ∧ getMXs "x.test" (.ok [⟨20, "b.test"⟩, ⟨10, "a.test"⟩]) (.ok []) (.ok []) (fun _ => 0) =
        .ok (sortMX (fun _ => 0) [⟨20, "b.test"⟩, ⟨10, "a.test"⟩])
    ∧ (sortMX (fun _ => 0) [⟨20, "b.test"⟩, ⟨10, "a.test"⟩]).Perm
        [⟨20, "b.test"⟩, ⟨10, "a.test"⟩] :=
  ⟨by decide,
    (getMXs_sorted_permutation.1 "x.test" _ (.ok []) (.ok []) (fun _ => 0) (by decide)).1,
    (getMXs_sorted_permutation.1 "x.test" _ (.ok []) (.ok []) (fun _ => 0) (by decide)).2.1⟩

/-- `addr.toLowerCase().startsWith("fd")` holds exactly when the first
two characters are `fd` case-insensitively. -/
theorem beginsWith_fd_iff (cs : List Char) :
    beginsWith ['f', 'd'] (jsToLower cs) = true ↔ firstTwoFD cs := by
  match cs with
  | [] => simp [beginsWith, jsToLower, firstTwoFD]
  | [c] => simp [beginsWith, jsToLower, firstTwoFD]
  | c1 :: c2 :: rest =>
    constructor
    · intro h
      simp [beginsWith, jsToLower, Bool.and_eq_true, beq_iff_eq] at h
      exact ⟨h.1.symm, h.2.symm⟩
    · intro h
      obtain ⟨h1, h2⟩ : c1.toLower = 'f' ∧ c2.toLower = 'd' := h
      simp [beginsWith, jsToLower, Bool.and_eq_true, beq_iff_eq, h1, h2]

/-- C9: for a string accepted by the IPv4 check, `isPrivate` returns
`.ok b` where `b` is true exactly when the first octet token is `10`, or
it is `172` with the numeric second octet in `[16, 31]`, or the first two
octet tokens are `192` and `168`; for a string accepted instead by the
IPv6 check, `b` is true exactly when the first two characters are `fd`
case-insensitively; and for a string accepted by neither check,
`isPrivate` throws the not-an-IP-address error.  The IPv6 validity check
is the external `is-ip` collaborator, quantified as `v6pred`. -/
theorem isPrivate_classification :
    ∀ (v6pred : String → Bool) (addr : String),
      (isIPv4 addr = true →
        ∃ a1 a2 a3 a4, splitOnDot addr.data = [a1, a2, a3, a4]
          ∧ ∃ b, isPrivate v6pred addr = .ok b
            ∧ (b = true ↔ (a1 = ['1', '0']
                ∨ (a1 = ['1', '7', '2'] ∧ 16 ≤ natOfDigits a2 ∧ natOfDigits a2 ≤ 31)
                ∨ (a1 = ['1', '9', '2'] ∧ a2 = ['1', '6', '8']))))
      ∧ (isIPv4 addr = false → v6pred addr = true →
          ∃ b, isPrivate v6pred addr = .ok b ∧ (b = true ↔ firstTwoFD addr.data))
      ∧ (isIPv4 addr = false → v6pred addr = false →
          isPrivate v6pred addr = .error (.plainError (addr ++ " is not an IP address"))) := by
  intro v6pred addr
  refine ⟨?_, ?_, ?_⟩
  · intro hv4
    have hshape := hv4
    unfold isIPv4 at hshape
    split at hshape
    case _ a1 a2 a3 a4 heq =>
      refine ⟨a1, a2, a3, a4, heq, ?_⟩
      by_cases h10 : a1 = ['1', '0']
      · exact ⟨true, by simp [isPrivate, hv4, heq, h10], by simp [h10]⟩
      · by_cases h172 : a1 = ['1', '7', '2']
        · refine ⟨decide (16 ≤ natOfDigits a2) && decide (natOfDigits a2 ≤ 31),
            by simp [isPrivate, hv4, heq, h10, h172], ?_⟩
          subst h172
          simp [Bool.and_eq_true, decide_eq_true_eq]
        · refine ⟨decide (a1 = ['1', '9', '2']) && decide (a2 = ['1', '6', '8']),
            by simp [isPrivate, hv4, heq, h10, h172], ?_⟩
          simp [h10, h172, Bool.and_eq_true, decide_eq_true_eq]
    case _ => exact absurd hshape (by simp)
  · intro hv4 hv6
    exact ⟨beginsWith ['f', 'd'] (jsToLower addr.data),
      by simp [isPrivate, hv4, hv6], beginsWith_fd_iff addr.data⟩
  · intro hv4 hv6
    simp [isPrivate, hv4, hv6]

/-- C9 witness: the three branches of the classification applied to a
private IPv4 address, a unique-local IPv6 address, and a non-address. -/
theorem isPrivate_classification_witness :
    (isIPv4 "10.0.0.1" = true
      ∧ ∃ a1 a2 a3 a4, splitOnDot "10.0.0.1".data = [a1, a2, a3, a4]
        ∧ ∃ b, isPrivate (fun _ => false) "10.0.0.1" = .ok b
          ∧ (b = true ↔ (a1 = ['1', '0']
              ∨ (a1 = ['1', '7', '2'] ∧ 16 ≤ natOfDigits a2 ∧ natOfDigits a2 ≤ 31)
              ∨ (a1 = ['1', '9', '2'] ∧ a2 = ['1', '6', '8']))))
    ∧ (isIPv4 "fd00::1" = false ∧ (fun s => s == "fd00::1") "fd00::1" = true
        ∧ ∃ b, isPrivate (fun s => s == "fd00::1") "fd00::1" = .ok b
            ∧ (b = true ↔ firstTwoFD "fd00::1".data))
    ∧ (isIPv4 "zzz" = false
        ∧ isPrivate (fun _ => false) "zzz" = .error (.plainError ("zzz" ++ " is not an IP address"))) :=
  ⟨⟨by decide, (isPrivate_classification (fun _ => false) "10.0.0.1").1 (by decide)⟩,
    ⟨by decide, by decide,
      (isPrivate_classification (fun s => s == "fd00::1") "fd00::1").2.1 (by decide) (by decide)⟩,
    ⟨by decide, (isPrivate_classification (fun _ => false) "zzz").2.2 (by decide) (by decide)⟩⟩

/-- A successful `untilRBracket` consumes exactly the bracket-free
characters before the first `']'`. -/
theorem untilRBracket_some (cs : List Char) :
    ∀ content, untilRBracket cs = some content →
      ']' ∉ content ∧ ∃ post, cs = content ++ ']' :: post := by
  induction cs with
  | nil => intro content h; simp [untilRBracket] at h
  | cons c cs ih =>
    intro content h
    by_cases hc : c = ']'
    · subst hc
      rw [untilRBracket, if_pos rfl] at h
      obtain rfl := Option.some.inj h
      exact ⟨by simp, cs, rfl⟩
    · rw [untilRBracket, if_neg hc] at h
      cases hcs : untilRBracket cs with
      | none => rw [hcs] at h; simp at h
      | some content' =>
        rw [hcs] at h
        obtain rfl := Option.some.inj (show some (c :: content') = some content from h)
        obtain ⟨hnotin, post, heq⟩ := ih content' hcs
        refine ⟨?_, post, by simp [heq]⟩
        simp only [List.mem_cons]
        rintro (h1 | h1)
        · exact hc h1.symm
        · exact hnotin h1

/-- When the capture contains no `']'`, `untilRBracket` captures exactly
it. -/
theorem untilRBracket_of_notin {mid : List Char} (post : List Char) (h : ']' ∉ mid) :
    untilRBracket (mid ++ ']' :: post) = some mid := by
  induction mid with
  | nil => simp [untilRBracket]
  | cons c cs ih =>
    have hc : c ≠ ']' := fun e => h (by simp [e])
    rw [List.cons_append, untilRBracket, if_neg hc,
      ih (fun hm => h (List.mem_cons_of_mem _ hm))]
    rfl

/-- A `']'` anywhere makes `untilRBracket` succeed. -/
theorem untilRBracket_mem (cs : List Char) (h : ']' ∈ cs) :
    ∃ content, untilRBracket cs = some content := by
  induction cs with
  | nil => simp at h
  | cons c cs ih =>
    by_cases hc : c = ']'
    · exact ⟨[], by rw [untilRBracket, if_pos hc]⟩
    · obtain ⟨content, hcont⟩ := ih (by
        rcases List.mem_cons.mp h with h1 | h2
        · exact absurd h1.symm hc
        · exact h2)
      exact ⟨c :: content, by rw [untilRBracket, if_neg hc, hcont]; rfl⟩

/-- A bracketed substring is preserved by prepending a character. -/
theorem hasBracketPair_cons {cs : List Char} (c : Char) (h : hasBracketPair cs) :
    hasBracketPair (c :: cs) := by
  obtain ⟨pre, mid, post, heq, hni⟩ := h
  exact ⟨c :: pre, mid, post, by simp [heq], hni⟩

/-- A successful plain-bracket match exhibits a bracketed substring. -/
theorem bracketCapture_some (cs : List Char) :
    ∀ content, bracketCapture cs = some content → hasBracketPair cs := by
  induction cs with
  | nil => intro content h; simp [bracketCapture] at h
  | cons c cs ih =>
    intro content h
    by_cases hc : c = '['
    · subst hc
      rw [bracketCapture, if_pos rfl] at h
      cases hu : untilRBracket cs with
      | some cont =>
        obtain ⟨hni, post, heq⟩ := untilRBracket_some cs cont hu
        exact ⟨[], cont, post, by simp [heq], hni⟩
      | none =>
        rw [hu] at h
        exact hasBracketPair_cons _ (ih content h)
    · rw [bracketCapture, if_neg hc] at h
      exact hasBracketPair_cons _ (ih content h)

/-- A bracketed substring makes the plain-bracket match succeed. -/
theorem bracketCapture_of_pair {cs : List Char} (h : hasBracketPair cs) :
    ∃ content, bracketCapture cs = some content := by
  obtain ⟨pre, mid, post, heq, hni⟩ := h
  subst heq
  induction pre with
  | nil =>
    rw [List.nil_append, bracketCapture, if_pos rfl]
    obtain ⟨content, hcont⟩ := untilRBracket_mem (mid ++ ']' :: post) (by simp)
    rw [hcont]
    exact ⟨content, rfl⟩
  | cons p pre ih =>
    rw [List.cons_append, bracketCapture]
    by_cases hp : p = '['
    · rw [if_pos hp]
      cases hu : untilRBracket (pre ++ '[' :: (mid ++ ']' :: post)) with
      | some content => exact ⟨content, rfl⟩
      | none =>
        obtain ⟨content, hcont⟩ :=
          untilRBracket_mem (pre ++ '[' :: (mid ++ ']' :: post)) (by simp)
        rw [hu] at hcont
        exact absurd hcont (by simp)
    · rw [if_neg hp]
      exact ih

/-- A successful IPv6-tagged match exhibits a bracketed substring. -/
theorem ipv6Capture_some (cs : List Char) :
    ∀ content, ipv6Capture cs = some content → hasBracketPair cs := by
  induction cs with
  | nil => intro content h; simp [ipv6Capture] at h
  | cons c0 rest ih =>
    intro content h
    match rest, h, ih with
    | [], h, _ => simp [ipv6Capture] at h
    | [c1], h, _ => simp [ipv6Capture] at h
    | [c1, c2], h, _ => simp [ipv6Capture] at h
    | [c1, c2, c3], h, _ => simp [ipv6Capture] at h
    | [c1, c2, c3, c4], h, _ => simp [ipv6Capture] at h
    | c1 :: c2 :: c3 :: c4 :: c5 :: tail, h, ih =>
      by_cases hC : c0 = '[' ∧ c1.toLower = 'i' ∧ c2.toLower = 'p' ∧ c3.toLower = 'v'
          ∧ c4 = '6' ∧ c5 = ':'
      · rw [ipv6Capture, if_pos hC] at h
        cases hu : untilRBracket tail with
        | some cont =>
          obtain ⟨hni, post, heq⟩ := untilRBracket_some tail cont hu
          refine ⟨[], c1 :: c2 :: c3 :: c4 :: c5 :: cont, post, by simp [hC.1, heq], ?_⟩
          simp only [List.mem_cons]
          rintro (h1 | h1 | h1 | h1 | h1 | h1)
          · exact absurd (h1 ▸ hC.2.1) (by decide)
          · exact absurd (h1 ▸ hC.2.2.1) (by decide)
          · exact absurd (h1 ▸ hC.2.2.2.1) (by decide)
          · exact absurd (h1 ▸ hC.2.2.2.2.1).symm (by decide)
          · exact absurd (h1 ▸ hC.2.2.2.2.2).symm (by decide)
          · exact hni h1
        | none =>
          rw [hu] at h
          exact hasBracketPair_cons _ (ih content h)
      · rw [ipv6Capture, if_neg hC] at h
        exact hasBracketPair_cons _ (ih content h)

/-- The leftmost viable `'['` wins: when no `'['` precedes ours and the
capture is `']'`-free, the plain-bracket match captures exactly it. -/
theorem bracketCapture_leftmost {pre mid : List Char} (post : List Char)
    (hpre : '[' ∉ pre) (hmid : ']' ∉ mid) :
    bracketCapture (pre ++ '[' :: (mid ++ ']' :: post)) = some mid := by
  induction pre with
  | nil => rw [List.nil_append, bracketCapture, if_pos rfl, untilRBracket_of_notin post hmid]
  | cons p pre ih =>
    have hp : p ≠ '[' := fun e => hpre (by simp [e])
    rw [List.cons_append, bracketCapture, if_neg hp]
    exact ih (fun hm => hpre (List.mem_cons_of_mem _ hm))

/-- C10: `addressFromLiteral` validates nothing and its patterns are
unanchored: it returns `"not.an.ip"` for `"[not.an.ip]"`; the `IPv6:`
tag is matched case-insensitively; it throws exactly when the input
contains no bracketed substring at all; and whenever the input decomposes
as `pre ++ "[" ++ mid ++ "]" ++ post` with no `'['` in `pre` and no `']'`
in `mid`, and the IPv6-tagged pattern does not match first, it returns
`mid` unchanged, whatever `mid` is. -/
theorem addressFromLiteral_no_validation :
    addressFromLiteral "[not.an.ip]" = .ok "not.an.ip"
    ∧ (addressFromLiteral "[ipv6:x]" = .ok "x" ∧ addressFromLiteral "[IPV6:x]" = .ok "x")
    ∧ (∀ s : String,
        (∃ msg, addressFromLiteral s = .error (.plainError msg)) ↔ ¬ hasBracketPair s.data)
    ∧ (∀ pre mid post : List Char, '[' ∉ pre → ']' ∉ mid →
        ipv6Capture (pre ++ '[' :: (mid ++ ']' :: post)) = none →
        addressFromLiteral (String.mk (pre ++ '[' :: (mid ++ ']' :: post))) =
          .ok (String.mk mid)) := by
  refine ⟨by decide, ⟨by decide, by decide⟩, ?_, ?_⟩
  · intro s
    unfold addressFromLiteral
    cases h6 : ipv6Capture s.data with
    | some cont =>
      simp only [h6]
      constructor
      · rintro ⟨msg, hmsg⟩
        exact absurd hmsg (by simp)
      · intro hno
        exact absurd (ipv6Capture_some s.data cont h6) hno
    | none =>
      simp only [h6]
      cases hb : bracketCapture s.data with
      | some cont =>
        simp only [hb]
        constructor
        · rintro ⟨msg, hmsg⟩
          exact absurd hmsg (by simp)
        · intro hno
          exact absurd (bracketCapture_some s.data cont hb) hno
      | none =>
        simp only [hb]
        constructor
        · intro _
          intro hpair
          obtain ⟨content, hcont⟩ := bracketCapture_of_pair hpair
          rw [hb] at hcont
          exact absurd hcont (by simp)
        · intro _
          exact ⟨s ++ " is not an address literal", rfl⟩
  · intro pre mid post hpre hmid h6
    unfold addressFromLiteral
    have hdata : (String.mk (pre ++ '[' :: (mid ++ ']' :: post))).data =
        pre ++ '[' :: (mid ++ ']' :: post) := rfl
    rw [hdata, h6, bracketCapture_leftmost post hpre hmid]

/-- C10 witness: the unanchored plain-bracket pattern applied to an input
with a leading junk character and a non-IP capture. -/
theorem addressFromLiteral_no_validation_witness :
    ('[' ∉ ['x'])
    ∧ (']' ∉ "not.an.ip".data)
    ∧ ipv6Capture (['x'] ++ '[' :: ("not.an.ip".data ++ ']' :: [])) = none
    ∧ addressFromLiteral (String.mk (['x'] ++ '[' :: ("not.an.ip".data ++ ']' :: []))) =
        .ok (String.mk "not.an.ip".data) :=
  ⟨by decide, by decide, by decide,
    addressFromLiteral_no_validation.2.2.2 ['x'] "not.an.ip".data []
      (by decide) (by decide) (by decide)⟩
